import Mathlib

/-!
Verification of `IceQuiverAll` (pbtools/pbtranscript/ice/IceQuiverAll.py).

The file under verification is a thin two-stage orchestrator: it stores a
configuration, formats a command-line string (`cmd_str`), and in `run()`
constructs an `IceQuiver` collaborator, calls its `validate_inputs` and `run`,
then constructs an `IceQuiverPostprocess` collaborator and calls its `run`.
The collaborator classes themselves are not part of the provided source, so
they are modelled from the spec as opaque data/behaviour.

Python methods are embedded in a state-passing style: a method on an object
takes the object and returns its result together with the (possibly updated)
object, so frame properties ("fields are never mutated") are statable.
-/

/-- Modelled from the spec: the SGE execution-options bundle.  The class is
absent from the provided source; the spec only requires a `use_sge` flag read
at the postprocess call site and a serialization method `cmd_str` taking the
two booleans `show_blasr_nproc` and `show_quiver_nproc`.  The serialization is
kept fully abstract as a function of those two booleans. -/
structure SgeOpts where
  use_sge : Bool
  cmdStrFn : Bool → Bool → String

/-- Serialization of the SGE options (`sge_opts.cmd_str(show_blasr_nproc=..,
show_quiver_nproc=..)` in the source). -/
def SgeOpts.cmd_str (o : SgeOpts) (show_blasr_nproc show_quiver_nproc : Bool) : String :=
  o.cmdStrFn show_blasr_nproc show_quiver_nproc

/-- Modelled from the spec: the HQ/LQ post-quiver options bundle.  The class
is absent from the provided source; the spec only requires a no-argument
serialization method `cmd_str`, kept abstract as a stored string. -/
structure IpqOpts where
  cmdStrVal : String

/-- Serialization of the HQ/LQ options (`ipq_opts.cmd_str()` in the source). -/
def IpqOpts.cmd_str (o : IpqOpts) : String :=
  o.cmdStrVal

/-- The configuration stored by `IceQuiverAll.__init__`: exactly the seven
fields assigned to `self` in the source. -/
structure IceQuiverAll where
  root_dir : String
  bas_fofn : String
  fasta_fofn : String
  report_fn : Option String
  summary_fn : Option String
  sge_opts : SgeOpts
  ipq_opts : IpqOpts

/-- The class-level attribute `prog = "ice_quiver.py all "`. -/
def IceQuiverAll.prog : String := "ice_quiver.py all "

/-- `IceQuiverAll.__init__`: the `prog_name` parameter is defaulted to
"IceQuiverAll" into a local variable and then never stored on the object,
exactly as in the source. -/
def IceQuiverAll.init (root_dir bas_fofn fasta_fofn : String)
    (sge_opts : SgeOpts) (ipq_opts : IpqOpts)
    (report_fn summary_fn : Option String)
    (prog_name : Option String) : IceQuiverAll :=
  let _prog_name := prog_name.getD "IceQuiverAll"
  { root_dir := root_dir, bas_fofn := bas_fofn, fasta_fofn := fasta_fofn,
    report_fn := report_fn, summary_fn := summary_fn,
    sge_opts := sge_opts, ipq_opts := ipq_opts }

/-- `IceQuiverAll._cmd_str`: builds the command string by successive
concatenation, mirroring the `cmd = ...; cmd += ...` chain of the source. -/
def IceQuiverAll.cmd_str_build (root_dir bas_fofn fasta_fofn : String)
    (sge_opts : SgeOpts) (ipq_opts : IpqOpts)
    (report_fn summary_fn : Option String) : String :=
  let cmd := IceQuiverAll.prog ++ (root_dir ++ " ")
      ++ ("--bas_fofn=" ++ bas_fofn ++ " ")
      ++ ("--fasta_fofn=" ++ fasta_fofn ++ " ")
  let cmd := match report_fn with
    | some f => cmd ++ ("--report=" ++ f ++ " ")
    | none => cmd
  let cmd := match summary_fn with
    | some f => cmd ++ ("--summary=" ++ f ++ " ")
    | none => cmd
  let cmd := cmd ++ sge_opts.cmd_str true true
  let cmd := cmd ++ ipq_opts.cmd_str
  cmd

/-- `IceQuiverAll.cmd_str`: delegates to `_cmd_str` on the stored fields. -/
def IceQuiverAll.cmd_str (s : IceQuiverAll) : String :=
  IceQuiverAll.cmd_str_build s.root_dir s.bas_fofn s.fasta_fofn
    s.sge_opts s.ipq_opts s.report_fn s.summary_fn

/-- State-passing embedding of the `cmd_str` method: the method body contains
no assignment to `self`, so the returned object is the receiver itself. -/
def IceQuiverAll.cmd_strSt (s : IceQuiverAll) : String × IceQuiverAll :=
  (s.cmd_str, s)

/-- The construction arguments of the `IceQuiver` collaborator, as passed at
the single construction site inside `IceQuiverAll.run`. -/
structure IceQuiver where
  root_dir : String
  bas_fofn : String
  fasta_fofn : String
  sge_opts : SgeOpts

/-- The construction arguments of the `IceQuiverPostprocess` collaborator, as
passed at the single construction site inside `IceQuiverAll.run`. -/
structure IceQuiverPostprocess where
  root_dir : String
  use_sge : Bool
  quit_if_not_done : Bool
  ipq_opts : IpqOpts

/-- Observable calls made by `IceQuiverAll.run` on its collaborators, each
recording the collaborator object it is invoked on. -/
inductive RunEvent where
  | validateInputsCall (iq : IceQuiver)
  | iceQuiverRunCall (iq : IceQuiver)
  | postprocessRunCall (pq : IceQuiverPostprocess)

/-- Modelled from the spec: behaviour of the collaborator methods
`IceQuiver.validate_inputs`, `IceQuiver.run` and `IceQuiverPostprocess.run`,
whose classes are absent from the provided source.  Each call either returns
normally or raises, modelled as `Except` with an arbitrary error type. -/
structure IceEnv (ε : Type) where
  validateInputs : IceQuiver → Except ε Unit
  iceQuiverRun : IceQuiver → Except ε Unit
  postprocessRun : IceQuiverPostprocess → Except ε Unit

/-- The `IceQuiver` object constructed by `IceQuiverAll.run`. -/
def IceQuiverAll.iceQuiverOf (s : IceQuiverAll) : IceQuiver :=
  { root_dir := s.root_dir, bas_fofn := s.bas_fofn,
    fasta_fofn := s.fasta_fofn, sge_opts := s.sge_opts }

/-- The `IceQuiverPostprocess` object constructed by `IceQuiverAll.run`. -/
def IceQuiverAll.postprocessOf (s : IceQuiverAll) : IceQuiverPostprocess :=
  { root_dir := s.root_dir, use_sge := s.sge_opts.use_sge,
    quit_if_not_done := false, ipq_opts := s.ipq_opts }

/-- State-passing embedding of `IceQuiverAll.run`: construct the `IceQuiver`
collaborator, call `validate_inputs` then `run`; an exception aborts the
sequence and propagates.  On success, construct the `IceQuiverPostprocess`
collaborator (with `quit_if_not_done=False`) and call its `run`.  The result
records the trace of collaborator calls, the final outcome, and the receiver
object after the method (no field of `self` is ever assigned in the source,
so the receiver is returned unchanged). -/
def IceQuiverAll.run {ε : Type} (s : IceQuiverAll) (env : IceEnv ε) :
    (List RunEvent × Except ε Unit) × IceQuiverAll :=
  let iceq := s.iceQuiverOf
  match env.validateInputs iceq with
  | Except.error e => (([RunEvent.validateInputsCall iceq], Except.error e), s)
  | Except.ok _ =>
    match env.iceQuiverRun iceq with
    | Except.error e =>
        (([RunEvent.validateInputsCall iceq, RunEvent.iceQuiverRunCall iceq],
          Except.error e), s)
    | Except.ok _ =>
      let icepq := s.postprocessOf
      (([RunEvent.validateInputsCall iceq, RunEvent.iceQuiverRunCall iceq,
         RunEvent.postprocessRunCall icepq], env.postprocessRun icepq), s)

/-! ### Occurrence counting for command strings -/

/-- Number of occurrences of the pattern `n` in `h`: the number of positions
of `h` at which `n` begins (for nonempty `n`). -/
def cntOcc (n : List Char) : List Char → Nat
  | [] => 0
  | c :: t => (if n <+: c :: t then 1 else 0) + cntOcc n t

/-- Occurrence count of one string inside another. -/
def cntOccS (n h : String) : Nat := cntOcc n.data h.data

/-- One string occurs verbatim (as a contiguous substring) inside another. -/
def strIn (n h : String) : Prop := n.data <:+: h.data

/-- One string begins with another. -/
def strBegins (p h : String) : Prop := p.data <+: h.data

theorem cntOcc_nil (n : List Char) : cntOcc n [] = 0 := rfl

theorem cntOcc_cons (n : List Char) (c : Char) (t : List Char) :
    cntOcc n (c :: t) = (if n <+: c :: t then 1 else 0) + cntOcc n t := rfl

theorem data_app (a b : String) : (a ++ b).data = a.data ++ b.data := by
  cases a; cases b; rfl

theorem strAppAssoc (a b c : String) : (a ++ b) ++ c = a ++ (b ++ c) := by
  cases a; cases b; cases c
  exact congrArg String.mk (List.append_assoc _ _ _)

theorem strAppNil (a : String) : a ++ "" = a := by
  cases a; exact congrArg String.mk (List.append_nil _)

/-- Two prefixes of the same list are comparable. -/
theorem pre_total {l₁ l₂ l₃ : List Char} (h1 : l₁ <+: l₃) (h2 : l₂ <+: l₃) :
    l₁ <+: l₂ ∨ l₂ <+: l₁ := by
  obtain ⟨t1, rfl⟩ := h1
  obtain ⟨t2, he⟩ := h2
  rcases List.append_eq_append_iff.mp he.symm with ⟨a', ha, _⟩ | ⟨c', hc, _⟩
  · exact Or.inl ⟨a', ha.symm⟩
  · exact Or.inr ⟨c', hc.symm⟩

/-- A space-free pattern starts at a position of `u ++ ' ' :: b` lying in `u`
iff it is a prefix of `u` itself: it cannot reach across the space. -/
theorem prefix_cons_space {n : List Char} (hn : ' ' ∉ n) (u b : List Char) :
    n <+: u ++ ' ' :: b ↔ n <+: u := by
  constructor
  · intro h
    have hu : u <+: u ++ ' ' :: b := ⟨' ' :: b, rfl⟩
    rcases pre_total h hu with h' | h'
    · exact h'
    · obtain ⟨v, hv0⟩ := h'
      obtain ⟨t, ht⟩ := h
      subst hv0
      rw [List.append_assoc] at ht
      have hv : v ++ t = ' ' :: b := by
        have := List.append_cancel_left ht
        exact this
      cases v with
      | nil => rw [List.append_nil]
      | cons c v' =>
        injection hv with h1 _
        subst h1
        exact absurd (by simp : (' ' : Char) ∈ u ++ ' ' :: v') hn
  · intro h
    obtain ⟨t, rfl⟩ := h
    exact ⟨t ++ ' ' :: b, by simp⟩

/-- Occurrences of a space-free pattern split at an interior space. -/
theorem cntOcc_split_space {n : List Char} (hn : ' ' ∉ n) (a b : List Char) :
    cntOcc n (a ++ ' ' :: b) = cntOcc n (a ++ [' ']) + cntOcc n b := by
  induction a with
  | nil =>
    rw [List.nil_append, List.nil_append, cntOcc_cons, cntOcc_cons, cntOcc_nil]
    have hiff : (n <+: ' ' :: b) ↔ (n <+: [' ']) := by
      constructor
      · intro h
        exact (prefix_cons_space hn [] []).mpr ((prefix_cons_space hn [] b).mp h)
      · intro h
        exact (prefix_cons_space hn [] b).mpr ((prefix_cons_space hn [] []).mp h)
    rw [if_congr hiff rfl rfl]
    omega
  | cons c a' ih =>
    rw [List.cons_append, List.cons_append, cntOcc_cons, cntOcc_cons]
    have hiff : (n <+: c :: (a' ++ ' ' :: b)) ↔ (n <+: c :: (a' ++ [' '])):= by
      constructor
      · intro h
        exact (prefix_cons_space hn (c :: a') []).mpr
          ((prefix_cons_space hn (c :: a') b).mp h)
      · intro h
        exact (prefix_cons_space hn (c :: a') b).mpr
          ((prefix_cons_space hn (c :: a') []).mp h)
    rw [if_congr hiff rfl rfl, ih]
    omega

/-- A trailing space adds no occurrence of a nonempty space-free pattern. -/
theorem cntOcc_drop_space {n : List Char} (hn : ' ' ∉ n) (hne : n ≠ [])
    (a : List Char) : cntOcc n (a ++ [' ']) = cntOcc n a := by
  induction a with
  | nil =>
    rw [List.nil_append, cntOcc_cons, cntOcc_nil]
    have hno : ¬ (n <+: [' ']) := by
      intro h
      have h0 : n <+: ([] : List Char) := (prefix_cons_space hn [] []).mp h
      obtain ⟨t, ht⟩ := h0
      exact hne (List.append_eq_nil.mp ht).1
    rw [if_neg hno]
  | cons c a' ih =>
    rw [List.cons_append, cntOcc_cons, cntOcc_cons]
    have hiff : (n <+: c :: (a' ++ [' '])) ↔ (n <+: c :: a') :=
      prefix_cons_space hn (c :: a') []
    rw [if_congr hiff rfl rfl, ih]

/-- No suffix of `l` starting before its end is prefix-compatible with `n`. -/
def cleanFor (N l : List Char) : Prop :=
  ∀ i (_ : i < l.length), ¬ N <+: l.drop i ∧ ¬ l.drop i <+: N

instance (N l : List Char) : Decidable (cleanFor N l) := by
  unfold cleanFor
  infer_instance

/-- A block that is prefix-incompatible with the pattern contributes no
occurrence, even jointly with what follows it. -/
theorem cntOcc_drop_clean_left {n : List Char} (l b : List Char)
    (h : cleanFor n l) : cntOcc n (l ++ b) = cntOcc n b := by
  induction l with
  | nil => rw [List.nil_append]
  | cons c l' ih =>
    rw [List.cons_append, cntOcc_cons]
    have h0 := h 0 (by simp)
    have hni : ¬ n <+: c :: (l' ++ b) := by
      intro hpre
      have hl : (c :: l') <+: (c :: l') ++ b := ⟨b, rfl⟩
      rcases pre_total hpre hl with h' | h'
      · exact h0.1 h'
      · exact h0.2 h'
    rw [if_neg hni]
    have ih2 : cntOcc n (l' ++ b) = cntOcc n b := by
      refine ih fun i hi => ?_
      exact h (i + 1) (Nat.succ_lt_succ hi)
    rw [ih2]
    omega

/-- A borderless pattern placed at the head of a block is counted exactly
once in that block position. -/
theorem cntOcc_needle_head {n : List Char} (c : Char) (m b : List Char)
    (hne : n = c :: m) (h : cleanFor n m) :
    cntOcc n (n ++ b) = 1 + cntOcc n b := by
  subst hne
  rw [List.cons_append, cntOcc_cons, if_pos ⟨b, rfl⟩,
    cntOcc_drop_clean_left m b h]

/-! ### Decomposition of the built command string -/

/-- The command string, flattened into its fixed concatenation order. -/
theorem cmd_str_decomp (s : IceQuiverAll) :
    s.cmd_str =
      IceQuiverAll.prog ++ (s.root_dir ++ " ")
        ++ ("--bas_fofn=" ++ s.bas_fofn ++ " ")
        ++ ("--fasta_fofn=" ++ s.fasta_fofn ++ " ")
        ++ (s.report_fn.elim "" (fun f => "--report=" ++ f ++ " "))
        ++ (s.summary_fn.elim "" (fun f => "--summary=" ++ f ++ " "))
        ++ s.sge_opts.cmd_str true true
        ++ s.ipq_opts.cmd_str := by
  rcases hr : s.report_fn with _ | r <;> rcases hq : s.summary_fn with _ | q <;>
    simp [IceQuiverAll.cmd_str, IceQuiverAll.cmd_str_build, hr, hq,
      Option.elim, strAppAssoc, strAppNil]

/-- Character-level spine of the command string when neither the report nor
the summary path is configured, split at the separating spaces. -/
theorem cmd_data_none (s : IceQuiverAll)
    (hr : s.report_fn = none) (hq : s.summary_fn = none) :
    s.cmd_str.data =
      ("ice_quiver.py all" : String).data ++ ' ' ::
        (s.root_dir.data ++ ' ' ::
          ((("--bas_fofn=" : String).data ++ s.bas_fofn.data) ++ ' ' ::
            ((("--fasta_fofn=" : String).data ++ s.fasta_fofn.data) ++ ' ' ::
              ((s.sge_opts.cmd_str true true).data
                ++ (s.ipq_opts.cmd_str).data)))) := by
  have hps : (IceQuiverAll.prog).data
      = ("ice_quiver.py all" : String).data ++ [' '] := rfl
  have hsp : (" " : String).data = [' '] := rfl
  rw [cmd_str_decomp, hr, hq]
  simp [Option.elim, data_app, hps, hsp, strAppNil, List.append_assoc]

/-- Character-level spine of the command string when both the report and the
summary path are configured, split at the separating spaces. -/
theorem cmd_data_some (s : IceQuiverAll) (r q : String)
    (hr : s.report_fn = some r) (hq : s.summary_fn = some q) :
    s.cmd_str.data =
      ("ice_quiver.py all" : String).data ++ ' ' ::
        (s.root_dir.data ++ ' ' ::
          ((("--bas_fofn=" : String).data ++ s.bas_fofn.data) ++ ' ' ::
            ((("--fasta_fofn=" : String).data ++ s.fasta_fofn.data) ++ ' ' ::
              ((("--report=" : String).data ++ r.data) ++ ' ' ::
                ((("--summary=" : String).data ++ q.data) ++ ' ' ::
                  ((s.sge_opts.cmd_str true true).data
                    ++ (s.ipq_opts.cmd_str).data)))))) := by
  have hps : (IceQuiverAll.prog).data
      = ("ice_quiver.py all" : String).data ++ [' '] := rfl
  have hsp : (" " : String).data = [' '] := rfl
  rw [cmd_str_decomp, hr, hq]
  simp [Option.elim, data_app, hps, hsp, List.append_assoc]

/-! ### Per-chunk occurrence counts -/

/-- A space-terminated concrete block with no occurrence contributes zero. -/
theorem cnt_chunk_lit {N : List Char} (hn : ' ' ∉ N) (lit rest : List Char)
    (hlit : cntOcc N (lit ++ [' ']) = 0) {k : Nat} (hrest : cntOcc N rest = k) :
    cntOcc N (lit ++ ' ' :: rest) = k := by
  rw [cntOcc_split_space hn, hlit, hrest]
  omega

/-- A space-terminated configured path with no occurrence contributes zero. -/
theorem cnt_chunk_var {N : List Char} (hn : ' ' ∉ N) (hne : N ≠ [])
    (x rest : List Char) (hx : cntOcc N x = 0) {k : Nat}
    (hrest : cntOcc N rest = k) :
    cntOcc N (x ++ ' ' :: rest) = k := by
  rw [cntOcc_split_space hn, cntOcc_drop_space hn hne, hx, hrest]
  omega

/-- A flag block `lit ++ path ++ " "` whose literal is prefix-incompatible
with the pattern contributes only what the path contains. -/
theorem cnt_chunk_flag {N : List Char} (hn : ' ' ∉ N) (hne : N ≠ [])
    (lit x rest : List Char) (hlit : cleanFor N lit) (hx : cntOcc N x = 0)
    {k : Nat} (hrest : cntOcc N rest = k) :
    cntOcc N ((lit ++ x) ++ ' ' :: rest) = k := by
  rw [cntOcc_split_space hn, cntOcc_drop_space hn hne,
    cntOcc_drop_clean_left lit x hlit, hx, hrest]
  omega

/-- A flag block whose literal is the (borderless) pattern itself contributes
exactly one occurrence more than its path. -/
theorem cnt_chunk_needle {N : List Char} (hn : ' ' ∉ N) (c : Char)
    (m : List Char) (hform : N = c :: m) (hm : cleanFor N m)
    (x rest : List Char) (hx : cntOcc N x = 0) {k : Nat}
    (hrest : cntOcc N rest = k) :
    cntOcc N ((N ++ x) ++ ' ' :: rest) = 1 + k := by
  have hne : N ≠ [] := by rw [hform]; exact List.cons_ne_nil c m
  rw [cntOcc_split_space hn, cntOcc_drop_space hn hne,
    cntOcc_needle_head c m x hform hm, hx, hrest]

/-- If a string decomposes as `a ++ (p ++ b)`, then `p` occurs in it. -/
theorem strIn_between (a p b h : String) (hd : h = a ++ (p ++ b)) :
    strIn p h := by
  subst hd
  unfold strIn
  rw [data_app, data_app]
  exact ⟨a.data, b.data, List.append_assoc _ _ _⟩

/-- If a string decomposes as `p ++ b`, then it begins with `p`. -/
theorem strBegins_of_decomp (p b h : String) (hd : h = p ++ b) :
    strBegins p h := by
  subst hd
  unfold strBegins
  rw [data_app]
  exact ⟨b.data, rfl⟩

/-- The command string always begins with the program token, the root
directory, and the two fofn flags, in that order. -/
theorem begins_base (s : IceQuiverAll) :
    strBegins (IceQuiverAll.prog ++ (s.root_dir ++ " ")
      ++ ("--bas_fofn=" ++ s.bas_fofn ++ " ")
      ++ ("--fasta_fofn=" ++ s.fasta_fofn ++ " ")) s.cmd_str := by
  apply strBegins_of_decomp _
    ((s.report_fn.elim "" fun f => "--report=" ++ f ++ " ")
      ++ ((s.summary_fn.elim "" fun f => "--summary=" ++ f ++ " ")
        ++ (s.sge_opts.cmd_str true true ++ s.ipq_opts.cmd_str)))
  rw [cmd_str_decomp]
  simp [strAppAssoc]

/-- The command string always begins with the program token. -/
theorem begins_prog (s : IceQuiverAll) :
    strBegins IceQuiverAll.prog s.cmd_str := by
  apply strBegins_of_decomp _
    ((s.root_dir ++ " ")
      ++ (("--bas_fofn=" ++ s.bas_fofn ++ " ")
        ++ (("--fasta_fofn=" ++ s.fasta_fofn ++ " ")
          ++ ((s.report_fn.elim "" fun f => "--report=" ++ f ++ " ")
            ++ ((s.summary_fn.elim "" fun f => "--summary=" ++ f ++ " ")
              ++ (s.sge_opts.cmd_str true true ++ s.ipq_opts.cmd_str))))))
  rw [cmd_str_decomp]
  simp [strAppAssoc]

/-- When a report path is configured, its flag and path appear verbatim. -/
theorem strIn_report (s : IceQuiverAll) (r : String)
    (hr : s.report_fn = some r) :
    strIn ("--report=" ++ r ++ " ") s.cmd_str := by
  apply strIn_between
    (IceQuiverAll.prog ++ ((s.root_dir ++ " ")
      ++ (("--bas_fofn=" ++ s.bas_fofn ++ " ")
        ++ ("--fasta_fofn=" ++ s.fasta_fofn ++ " "))))
    _
    ((s.summary_fn.elim "" fun f => "--summary=" ++ f ++ " ")
      ++ (s.sge_opts.cmd_str true true ++ s.ipq_opts.cmd_str))
  rw [cmd_str_decomp, hr]
  simp [Option.elim, strAppAssoc]

/-- When a summary path is configured, its flag and path appear verbatim. -/
theorem strIn_summary (s : IceQuiverAll) (q : String)
    (hq : s.summary_fn = some q) :
    strIn ("--summary=" ++ q ++ " ") s.cmd_str := by
  apply strIn_between
    (IceQuiverAll.prog ++ ((s.root_dir ++ " ")
      ++ (("--bas_fofn=" ++ s.bas_fofn ++ " ")
        ++ (("--fasta_fofn=" ++ s.fasta_fofn ++ " ")
          ++ (s.report_fn.elim "" fun f => "--report=" ++ f ++ " ")))))
    _
    (s.sge_opts.cmd_str true true ++ s.ipq_opts.cmd_str)
  rw [cmd_str_decomp, hq]
  simp [Option.elim, strAppAssoc]

/-- Neither flag text occurs in the given string. -/
def flagFree (x : String) : Prop :=
  cntOccS "--report=" x = 0 ∧ cntOccS "--summary=" x = 0

instance (x : String) : Decidable (flagFree x) := by
  unfold flagFree cntOccS
  infer_instance

/-- Occurrences of a pattern in the whole command string when no report and
no summary path is configured, from its occurrences in the components. -/
theorem cnt_cmd_none_gen (s : IceQuiverAll) (N : List Char)
    (hn : ' ' ∉ N) (hne : N ≠ [])
    (hr : s.report_fn = none) (hq : s.summary_fn = none)
    (hprog : cntOcc N (("ice_quiver.py all" : String).data ++ [' ']) = 0)
    (hbasLit : cleanFor N ("--bas_fofn=" : String).data)
    (hfaLit : cleanFor N ("--fasta_fofn=" : String).data)
    (hroot : cntOcc N s.root_dir.data = 0)
    (hbas : cntOcc N s.bas_fofn.data = 0)
    (hfa : cntOcc N s.fasta_fofn.data = 0)
    (htail : cntOcc N ((s.sge_opts.cmd_str true true).data
      ++ (s.ipq_opts.cmd_str).data) = 0) :
    cntOcc N s.cmd_str.data = 0 := by
  rw [cmd_data_none s hr hq]
  exact cnt_chunk_lit hn _ _ hprog
    (cnt_chunk_var hn hne _ _ hroot
      (cnt_chunk_flag hn hne _ _ _ hbasLit hbas
        (cnt_chunk_flag hn hne _ _ _ hfaLit hfa htail)))

/-- Specialization of `cnt_chunk_needle` contributing exactly one. -/
theorem cnt_chunk_needle1 {N : List Char} (hn : ' ' ∉ N) (c : Char)
    (m : List Char) (hform : N = c :: m) (hm : cleanFor N m)
    (x rest : List Char) (hx : cntOcc N x = 0)
    (hrest : cntOcc N rest = 0) :
    cntOcc N ((N ++ x) ++ ' ' :: rest) = 1 := by
  have h := cnt_chunk_needle hn c m hform hm x rest hx hrest
  omega

/-- The report flag text occurs exactly once in the command string when both
paths are configured and no component contains it on its own. -/
theorem cnt_cmd_some_rep (s : IceQuiverAll) (r q : String)
    (hr : s.report_fn = some r) (hq : s.summary_fn = some q)
    (hroot : cntOcc ("--report=" : String).data s.root_dir.data = 0)
    (hbas : cntOcc ("--report=" : String).data s.bas_fofn.data = 0)
    (hfa : cntOcc ("--report=" : String).data s.fasta_fofn.data = 0)
    (hrp : cntOcc ("--report=" : String).data r.data = 0)
    (hqp : cntOcc ("--report=" : String).data q.data = 0)
    (htail : cntOcc ("--report=" : String).data
      ((s.sge_opts.cmd_str true true).data ++ (s.ipq_opts.cmd_str).data) = 0) :
    cntOcc ("--report=" : String).data s.cmd_str.data = 1 := by
  have hn : ' ' ∉ ("--report=" : String).data := by decide
  have hne : ("--report=" : String).data ≠ [] := by decide
  rw [cmd_data_some s r q hr hq]
  exact cnt_chunk_lit hn _ _ (by decide)
    (cnt_chunk_var hn hne _ _ hroot
      (cnt_chunk_flag hn hne _ _ _ (by decide) hbas
        (cnt_chunk_flag hn hne _ _ _ (by decide) hfa
          (cnt_chunk_needle1 hn '-' (("-report=" : String).data) (by decide)
            (by decide) r.data _ hrp
            (cnt_chunk_flag hn hne _ _ _ (by decide) hqp htail)))))

/-- The summary flag text occurs exactly once in the command string when both
paths are configured and no component contains it on its own. -/
theorem cnt_cmd_some_sum (s : IceQuiverAll) (r q : String)
    (hr : s.report_fn = some r) (hq : s.summary_fn = some q)
    (hroot : cntOcc ("--summary=" : String).data s.root_dir.data = 0)
    (hbas : cntOcc ("--summary=" : String).data s.bas_fofn.data = 0)
    (hfa : cntOcc ("--summary=" : String).data s.fasta_fofn.data = 0)
    (hrp : cntOcc ("--summary=" : String).data r.data = 0)
    (hqp : cntOcc ("--summary=" : String).data q.data = 0)
    (htail : cntOcc ("--summary=" : String).data
      ((s.sge_opts.cmd_str true true).data ++ (s.ipq_opts.cmd_str).data) = 0) :
    cntOcc ("--summary=" : String).data s.cmd_str.data = 1 := by
  have hn : ' ' ∉ ("--summary=" : String).data := by decide
  have hne : ("--summary=" : String).data ≠ [] := by decide
  rw [cmd_data_some s r q hr hq]
  exact cnt_chunk_lit hn _ _ (by decide)
    (cnt_chunk_var hn hne _ _ hroot
      (cnt_chunk_flag hn hne _ _ _ (by decide) hbas
        (cnt_chunk_flag hn hne _ _ _ (by decide) hfa
          (cnt_chunk_flag hn hne _ _ _ (by decide) hrp
            (cnt_chunk_needle1 hn '-' (("-summary=" : String).data) (by decide)
              (by decide) q.data _ hqp htail)))))

/-! ### Concrete sample configurations and collaborator behaviours -/

/-- A concrete SGE options bundle with a plausible serialization. -/
def sampleSge : SgeOpts :=
  { use_sge := true,
    cmdStrFn := fun _ _ => "--use_sge --blasr_nproc=12 --quiver_nproc=8 " }

/-- A concrete HQ/LQ options bundle with a plausible serialization. -/
def sampleIpq : IpqOpts := { cmdStrVal := "--hq_quiver_min_accuracy=0.99 " }

/-- The spec's example configuration with the sample options bundles. -/
def sampleCfg : IceQuiverAll :=
  { root_dir := "/out", bas_fofn := "bas.fofn", fasta_fofn := "fa.fofn",
    report_fn := none, summary_fn := none,
    sge_opts := sampleSge, ipq_opts := sampleIpq }

/-- The sample configuration with report and summary paths configured. -/
def sampleCfgRS : IceQuiverAll :=
  { sampleCfg with report_fn := some "r.csv", summary_fn := some "rs.txt" }

/-- The sample configuration with empty report and summary paths. -/
def sampleCfgEE : IceQuiverAll :=
  { sampleCfg with report_fn := some "", summary_fn := some "" }

/-- The sample configuration with a different `use_sge` flag but identical
serialization results. -/
def sampleCfgB : IceQuiverAll :=
  { sampleCfg with
    sge_opts :=
      { use_sge := false,
        cmdStrFn := fun _ _ => "--use_sge --blasr_nproc=12 --quiver_nproc=8 " } }

/-- A parametrized version of the spec's example configuration. -/
def exCfg (so : SgeOpts) (io : IpqOpts) : IceQuiverAll :=
  { root_dir := "/out", bas_fofn := "bas.fofn", fasta_fofn := "fa.fofn",
    report_fn := none, summary_fn := none, sge_opts := so, ipq_opts := io }

/-- A configuration whose report path itself contains the report flag text. -/
def ceCfg : IceQuiverAll :=
  { root_dir := "d", bas_fofn := "b", fasta_fofn := "f",
    report_fn := some "--report=0", summary_fn := some "s",
    sge_opts := { use_sge := false, cmdStrFn := fun _ _ => "" },
    ipq_opts := { cmdStrVal := "" } }

/-- Collaborator behaviour in which every call succeeds. -/
def okEnv : IceEnv Unit :=
  { validateInputs := fun _ => Except.ok (),
    iceQuiverRun := fun _ => Except.ok (),
    postprocessRun := fun _ => Except.ok () }

/-- Collaborator behaviour in which input validation raises. -/
def failEnv : IceEnv Nat :=
  { validateInputs := fun _ => Except.error 7,
    iceQuiverRun := fun _ => Except.ok (),
    postprocessRun := fun _ => Except.ok () }

/-! ### Claims about the run sequence -/

/-- C1: `IceQuiverAll.run` always calls the polishing collaborator's
`validate_inputs` first, before its `run`; the post-processing collaborator
is invoked only if both `validate_inputs` and the polishing `run` returned
successfully, and then only after them — stage 2 never starts before stage 1
returns successfully. -/
theorem c1_run_validate_first_postprocess_gated (ε : Type) (s : IceQuiverAll)
    (env : IceEnv ε) :
    (s.run env).1.1.head? = some (RunEvent.validateInputsCall s.iceQuiverOf) ∧
    (∀ pq, RunEvent.postprocessRunCall pq ∈ (s.run env).1.1 →
      env.validateInputs s.iceQuiverOf = Except.ok () ∧
      env.iceQuiverRun s.iceQuiverOf = Except.ok () ∧
      (s.run env).1.1
        = [RunEvent.validateInputsCall s.iceQuiverOf,
           RunEvent.iceQuiverRunCall s.iceQuiverOf,
           RunEvent.postprocessRunCall s.postprocessOf]) := by
  cases hv : env.validateInputs s.iceQuiverOf with
  | error e =>
    refine ⟨by simp [IceQuiverAll.run, hv], fun pq hmem => ?_⟩
    simp [IceQuiverAll.run, hv] at hmem
  | ok u =>
    cases u
    cases hrn : env.iceQuiverRun s.iceQuiverOf with
    | error e =>
      refine ⟨by simp [IceQuiverAll.run, hv, hrn], fun pq hmem => ?_⟩
      simp [IceQuiverAll.run, hv, hrn] at hmem
    | ok u2 =>
      cases u2
      exact ⟨by simp [IceQuiverAll.run, hv, hrn],
        fun pq _ => ⟨rfl, rfl, by simp [IceQuiverAll.run, hv, hrn]⟩⟩

/-- Witness for C1 at a concrete configuration with succeeding
collaborators. -/
theorem c1_witness :
    okEnv.validateInputs sampleCfg.iceQuiverOf = Except.ok () ∧
    okEnv.iceQuiverRun sampleCfg.iceQuiverOf = Except.ok () ∧
    (sampleCfg.run okEnv).1.1
      = [RunEvent.validateInputsCall sampleCfg.iceQuiverOf,
         RunEvent.iceQuiverRunCall sampleCfg.iceQuiverOf,
         RunEvent.postprocessRunCall sampleCfg.postprocessOf] :=
  (c1_run_validate_first_postprocess_gated Unit sampleCfg okEnv).2
    sampleCfg.postprocessOf
    (List.Mem.tail _ (List.Mem.tail _ (List.Mem.head _)))

/-- C2: after a successful polishing run, `run` always constructs the
post-processing collaborator with the same root directory, `use_sge`
mirrored from the SGE options, `quit_if_not_done` fixed to `false`, and the
HQ/LQ options, and invokes its `run`; the stored configuration carries no
completion-state flag that could suppress this. -/
theorem c2_run_postprocess_after_success (ε : Type) (s : IceQuiverAll)
    (env : IceEnv ε)
    (hv : env.validateInputs s.iceQuiverOf = Except.ok ())
    (hrn : env.iceQuiverRun s.iceQuiverOf = Except.ok ()) :
    (s.run env).1.1
      = [RunEvent.validateInputsCall s.iceQuiverOf,
         RunEvent.iceQuiverRunCall s.iceQuiverOf,
         RunEvent.postprocessRunCall s.postprocessOf] ∧
    (s.run env).1.2 = env.postprocessRun s.postprocessOf ∧
    s.postprocessOf.root_dir = s.root_dir ∧
    s.postprocessOf.use_sge = s.sge_opts.use_sge ∧
    s.postprocessOf.quit_if_not_done = false ∧
    s.postprocessOf.ipq_opts = s.ipq_opts :=
  ⟨by simp [IceQuiverAll.run, hv, hrn], by simp [IceQuiverAll.run, hv, hrn],
    rfl, rfl, rfl, rfl⟩

/-- Witness for C2. -/
theorem c2_witness :
    (sampleCfg.run okEnv).1.2 = okEnv.postprocessRun sampleCfg.postprocessOf :=
  (c2_run_postprocess_after_success Unit sampleCfg okEnv rfl rfl).2.1

/-- C6: an error outcome of `run` is exactly the error raised by one of the
three collaborator calls, unmodified (the error type is fully abstract, so
the orchestrator can neither build nor alter errors), and no collaborator
call is ever repeated — there is no retry. -/
theorem c6_run_error_passthrough (ε : Type) (s : IceQuiverAll)
    (env : IceEnv ε) (e : ε)
    (h : (s.run env).1.2 = Except.error e) :
    (env.validateInputs s.iceQuiverOf = Except.error e ∨
     env.iceQuiverRun s.iceQuiverOf = Except.error e ∨
     env.postprocessRun s.postprocessOf = Except.error e) ∧
    (s.run env).1.1.Nodup := by
  cases hv : env.validateInputs s.iceQuiverOf with
  | error e1 =>
    rw [show (s.run env).1.2 = Except.error e1 from by
      simp [IceQuiverAll.run, hv]] at h
    injection h with h1
    subst h1
    exact ⟨Or.inl rfl, by simp [IceQuiverAll.run, hv]⟩
  | ok u =>
    cases u
    cases hrn : env.iceQuiverRun s.iceQuiverOf with
    | error e2 =>
      rw [show (s.run env).1.2 = Except.error e2 from by
        simp [IceQuiverAll.run, hv, hrn]] at h
      injection h with h1
      subst h1
      exact ⟨Or.inr (Or.inl rfl), by simp [IceQuiverAll.run, hv, hrn]⟩
    | ok u2 =>
      cases u2
      rw [show (s.run env).1.2 = env.postprocessRun s.postprocessOf from by
        simp [IceQuiverAll.run, hv, hrn]] at h
      exact ⟨Or.inr (Or.inr h), by simp [IceQuiverAll.run, hv, hrn]⟩

/-- Witness for C6 at a concrete failing validation. -/
theorem c6_witness :
    (failEnv.validateInputs sampleCfg.iceQuiverOf = Except.error 7 ∨
     failEnv.iceQuiverRun sampleCfg.iceQuiverOf = Except.error 7 ∨
     failEnv.postprocessRun sampleCfg.postprocessOf = Except.error 7) ∧
    (sampleCfg.run failEnv).1.1.Nodup :=
  c6_run_error_passthrough Nat sampleCfg failEnv 7 rfl

/-- C7: the stored configuration is never mutated after construction: both
the `run` and the `cmd_str` method return the receiver object — hence every
stored field — unchanged. -/
theorem c7_state_never_mutated (ε : Type) (s : IceQuiverAll)
    (env : IceEnv ε) :
    (s.run env).2 = s ∧ s.cmd_strSt.2 = s := by
  refine ⟨?_, rfl⟩
  cases hv : env.validateInputs s.iceQuiverOf with
  | error e => simp [IceQuiverAll.run, hv]
  | ok u =>
    cases u
    cases hrn : env.iceQuiverRun s.iceQuiverOf with
    | error e => simp [IceQuiverAll.run, hv, hrn]
    | ok u2 =>
      cases u2
      simp [IceQuiverAll.run, hv, hrn]

/-- C9: the `prog_name` constructor parameter has no observable effect: two
constructions differing only in it (including `none`) yield equal objects,
hence equal command strings — always beginning with the fixed class-level
token — and identical run behaviour; the parameter is not stored. -/
theorem c9_prog_name_no_effect (root bas fa : String) (so : SgeOpts)
    (io : IpqOpts) (rep summ : Option String) (pn1 pn2 : Option String) :
    IceQuiverAll.init root bas fa so io rep summ pn1
      = IceQuiverAll.init root bas fa so io rep summ pn2 ∧
    IceQuiverAll.prog = "ice_quiver.py all " ∧
    strBegins IceQuiverAll.prog
      (IceQuiverAll.init root bas fa so io rep summ pn1).cmd_str ∧
    (∀ (ε : Type) (env : IceEnv ε),
      (IceQuiverAll.init root bas fa so io rep summ pn1).run env
        = (IceQuiverAll.init root bas fa so io rep summ pn2).run env) :=
  ⟨rfl, rfl, begins_prog _, fun _ _ => rfl⟩

/-! ### Claims about the command-string formatter -/

/-- C5: `cmd_str` concatenates, in fixed order: program name, root directory,
the two fofn flags with their paths, the optional report flag, the optional
summary flag, the SGE options' serialization invoked with both the blasr and
the quiver parallelism knobs surfaced, and the HQ/LQ options' serialization
last. -/
theorem c5_cmd_str_fixed_order (s : IceQuiverAll) :
    s.cmd_str = IceQuiverAll.prog ++ (s.root_dir ++ " ")
      ++ ("--bas_fofn=" ++ s.bas_fofn ++ " ")
      ++ ("--fasta_fofn=" ++ s.fasta_fofn ++ " ")
      ++ (s.report_fn.elim "" fun f => "--report=" ++ f ++ " ")
      ++ (s.summary_fn.elim "" fun f => "--summary=" ++ f ++ " ")
      ++ s.sge_opts.cmd_str true true
      ++ s.ipq_opts.cmd_str :=
  cmd_str_decomp s

/-- C8: `cmd_str` is a pure, deterministic function of the stored paths and
of the collaborator serialization results: two configurations agreeing on
those yield equal command strings (in particular no other part of the
options objects is read, and the formatter is total, with no error outcome
of its own). -/
theorem c8_cmd_str_pure_deterministic (s1 s2 : IceQuiverAll)
    (h1 : s1.root_dir = s2.root_dir) (h2 : s1.bas_fofn = s2.bas_fofn)
    (h3 : s1.fasta_fofn = s2.fasta_fofn) (h4 : s1.report_fn = s2.report_fn)
    (h5 : s1.summary_fn = s2.summary_fn)
    (h6 : s1.sge_opts.cmd_str true true = s2.sge_opts.cmd_str true true)
    (h7 : s1.ipq_opts.cmd_str = s2.ipq_opts.cmd_str) :
    s1.cmd_str = s2.cmd_str := by
  rw [cmd_str_decomp s1, cmd_str_decomp s2, h1, h2, h3, h4, h5, h6, h7]

/-- Witness for C8: the sample configurations differ in the `use_sge` flag
but agree on the serialization results. -/
theorem c8_witness : sampleCfg.cmd_str = sampleCfgB.cmd_str :=
  c8_cmd_str_pure_deterministic sampleCfg sampleCfgB rfl rfl rfl rfl rfl rfl
    rfl

set_option maxRecDepth 1000000 in
/-- C4: the command string always begins with the program token, the root
directory and the two fofn flags with their paths, verbatim and in order;
at the documented example configuration it begins with the exact literal and
contains neither flag text, provided the collaborator serializations contain
neither. -/
theorem c4_cmd_str_fixed_head (s : IceQuiverAll) (so : SgeOpts)
    (io : IpqOpts)
    (hrep0 : cntOccS "--report=" (so.cmd_str true true ++ io.cmd_str) = 0)
    (hsum0 : cntOccS "--summary=" (so.cmd_str true true ++ io.cmd_str) = 0) :
    strBegins (IceQuiverAll.prog ++ (s.root_dir ++ " ")
        ++ ("--bas_fofn=" ++ s.bas_fofn ++ " ")
        ++ ("--fasta_fofn=" ++ s.fasta_fofn ++ " ")) s.cmd_str ∧
    strBegins
      "ice_quiver.py all /out --bas_fofn=bas.fofn --fasta_fofn=fa.fofn "
      (exCfg so io).cmd_str ∧
    cntOccS "--report=" ((exCfg so io).cmd_str) = 0 ∧
    cntOccS "--summary=" ((exCfg so io).cmd_str) = 0 := by
  have hrep0x : cntOcc ("--report=" : String).data
      ((so.cmd_str true true).data ++ (io.cmd_str).data) = 0 := by
    unfold cntOccS at hrep0
    rwa [data_app] at hrep0
  have hsum0x : cntOcc ("--summary=" : String).data
      ((so.cmd_str true true).data ++ (io.cmd_str).data) = 0 := by
    unfold cntOccS at hsum0
    rwa [data_app] at hsum0
  refine ⟨begins_base s, ?_, ?_, ?_⟩
  · have hb := begins_base (exCfg so io)
    have hlit : (IceQuiverAll.prog ++ ((exCfg so io).root_dir ++ " ")
        ++ ("--bas_fofn=" ++ (exCfg so io).bas_fofn ++ " ")
        ++ ("--fasta_fofn=" ++ (exCfg so io).fasta_fofn ++ " "))
        = "ice_quiver.py all /out --bas_fofn=bas.fofn --fasta_fofn=fa.fofn "
        := by
      show (IceQuiverAll.prog ++ (("/out" : String) ++ " ")
        ++ ("--bas_fofn=" ++ ("bas.fofn" : String) ++ " ")
        ++ ("--fasta_fofn=" ++ ("fa.fofn" : String) ++ " ")) = _
      decide
    rwa [hlit] at hb
  · refine cnt_cmd_none_gen (exCfg so io) _ (by decide) (by decide) rfl rfl
      (by decide) (by decide) (by decide) ?_ ?_ ?_ hrep0x
    · show cntOcc ("--report=" : String).data ("/out" : String).data = 0
      decide
    · show cntOcc ("--report=" : String).data ("bas.fofn" : String).data = 0
      decide
    · show cntOcc ("--report=" : String).data ("fa.fofn" : String).data = 0
      decide
  · refine cnt_cmd_none_gen (exCfg so io) _ (by decide) (by decide) rfl rfl
      (by decide) (by decide) (by decide) ?_ ?_ ?_ hsum0x
    · show cntOcc ("--summary=" : String).data ("/out" : String).data = 0
      decide
    · show cntOcc ("--summary=" : String).data ("bas.fofn" : String).data = 0
      decide
    · show cntOcc ("--summary=" : String).data ("fa.fofn" : String).data = 0
      decide

set_option maxRecDepth 1000000 in
/-- Witness for C4 with the concrete sample serializations. -/
theorem c4_witness :
    strBegins
      "ice_quiver.py all /out --bas_fofn=bas.fofn --fasta_fofn=fa.fofn "
      (exCfg sampleSge sampleIpq).cmd_str ∧
    cntOccS "--report=" ((exCfg sampleSge sampleIpq).cmd_str) = 0 ∧
    cntOccS "--summary=" ((exCfg sampleSge sampleIpq).cmd_str) = 0 :=
  (c4_cmd_str_fixed_head sampleCfg sampleSge sampleIpq (by decide)
    (by decide)).2

/-- C3 (amended): provided the configured strings and the collaborator
serializations do not themselves contain the flag texts, the command string
contains no report and no summary flag when neither path is configured, and
exactly one occurrence of each — with the configured paths included
verbatim — when both are configured non-empty. -/
theorem c3_flag_occurrences (s : IceQuiverAll) (r q : String)
    (hroot : flagFree s.root_dir) (hbas : flagFree s.bas_fofn)
    (hfa : flagFree s.fasta_fofn)
    (htail : flagFree (s.sge_opts.cmd_str true true ++ s.ipq_opts.cmd_str))
    (hrf : flagFree r) (hqf : flagFree q) :
    (s.report_fn = none → s.summary_fn = none →
      cntOccS "--report=" s.cmd_str = 0 ∧
      cntOccS "--summary=" s.cmd_str = 0) ∧
    (s.report_fn = some r → s.summary_fn = some q → r ≠ "" → q ≠ "" →
      cntOccS "--report=" s.cmd_str = 1 ∧
      cntOccS "--summary=" s.cmd_str = 1 ∧
      strIn ("--report=" ++ r ++ " ") s.cmd_str ∧
      strIn ("--summary=" ++ q ++ " ") s.cmd_str) := by
  obtain ⟨hroot1, hroot2⟩ := hroot
  obtain ⟨hbas1, hbas2⟩ := hbas
  obtain ⟨hfa1, hfa2⟩ := hfa
  obtain ⟨htail1, htail2⟩ := htail
  obtain ⟨hrf1, hrf2⟩ := hrf
  obtain ⟨hqf1, hqf2⟩ := hqf
  unfold cntOccS at htail1 htail2 hroot1 hroot2 hbas1 hbas2 hfa1 hfa2
  unfold cntOccS at hrf1 hrf2 hqf1 hqf2
  rw [data_app] at htail1 htail2
  constructor
  · intro hrn hqn
    constructor
    · exact cnt_cmd_none_gen s _ (by decide) (by decide) hrn hqn (by decide)
        (by decide) (by decide) hroot1 hbas1 hfa1 htail1
    · exact cnt_cmd_none_gen s _ (by decide) (by decide) hrn hqn (by decide)
        (by decide) (by decide) hroot2 hbas2 hfa2 htail2
  · intro hrs hqs _ _
    exact ⟨cnt_cmd_some_rep s r q hrs hqs hroot1 hbas1 hfa1 hrf1 hqf1 htail1,
      cnt_cmd_some_sum s r q hrs hqs hroot2 hbas2 hfa2 hrf2 hqf2 htail2,
      strIn_report s r hrs, strIn_summary s q hqs⟩

set_option maxRecDepth 1000000 in
/-- Witness for C3 (amended) at a concrete configuration with both paths
configured and non-empty. -/
theorem c3_witness :
    cntOccS "--report=" sampleCfgRS.cmd_str = 1 ∧
    cntOccS "--summary=" sampleCfgRS.cmd_str = 1 ∧
    strIn ("--report=" ++ "r.csv" ++ " ") sampleCfgRS.cmd_str ∧
    strIn ("--summary=" ++ "rs.txt" ++ " ") sampleCfgRS.cmd_str :=
  (c3_flag_occurrences sampleCfgRS "r.csv" "rs.txt" (by decide) (by decide)
    (by decide) (by decide) (by decide) (by decide)).2 rfl rfl (by decide)
    (by decide)

set_option maxRecDepth 1000000 in
/-- C3 counterexample: with both paths configured non-empty but the report
path itself containing the flag text, the report flag occurs twice — not
exactly once — in the command string. -/
theorem c3_counterexample :
    ceCfg.report_fn = some "--report=0" ∧ ("--report=0" : String) ≠ "" ∧
    ceCfg.summary_fn = some "s" ∧ ("s" : String) ≠ "" ∧
    cntOccS "--report=" ceCfg.cmd_str = 2 ∧
    cntOccS "--report=" ceCfg.cmd_str ≠ 1 :=
  ⟨rfl, by decide, rfl, by decide, by decide, by decide⟩

/-- C10: a flag piece is included by the formatter exactly when the
corresponding field is not `None`: any configured path appears as
`--flag=path ` verbatim — in particular an empty path yields `"--report= "`
resp. `"--summary= "` — while with both fields `None` the command string is
built with no flag piece at all. -/
theorem c10_flag_iff_not_none (s : IceQuiverAll) :
    (∀ p, s.report_fn = some p →
      strIn ("--report=" ++ p ++ " ") s.cmd_str) ∧
    (∀ p, s.summary_fn = some p →
      strIn ("--summary=" ++ p ++ " ") s.cmd_str) ∧
    (s.report_fn = some "" → strIn "--report= " s.cmd_str) ∧
    (s.summary_fn = some "" → strIn "--summary= " s.cmd_str) ∧
    (s.report_fn = none → s.summary_fn = none →
      s.cmd_str = IceQuiverAll.prog ++ (s.root_dir ++ " ")
        ++ ("--bas_fofn=" ++ s.bas_fofn ++ " ")
        ++ ("--fasta_fofn=" ++ s.fasta_fofn ++ " ")
        ++ s.sge_opts.cmd_str true true ++ s.ipq_opts.cmd_str) := by
  refine ⟨fun p hp => strIn_report s p hp, fun p hp => strIn_summary s p hp,
    ?_, ?_, ?_⟩
  · intro hp
    rw [show ("--report= " : String) = "--report=" ++ "" ++ " " from rfl]
    exact strIn_report s "" hp
  · intro hp
    rw [show ("--summary= " : String) = "--summary=" ++ "" ++ " " from rfl]
    exact strIn_summary s "" hp
  · intro hrn hqn
    rw [cmd_str_decomp, hrn, hqn]
    simp [Option.elim, strAppNil]

/-- Witness for C10 at a configuration with empty report and summary
paths. -/
theorem c10_witness :
    strIn "--report= " sampleCfgEE.cmd_str ∧
    strIn "--summary= " sampleCfgEE.cmd_str :=
  ⟨(c10_flag_iff_not_none sampleCfgEE).2.2.1 rfl,
   (c10_flag_iff_not_none sampleCfgEE).2.2.2.1 rfl⟩
